import Mathlib

/-
Shallow embedding of the metime_core entity store (src/src/domain.rs,
src/src/repository.rs, src/src/repository/memory_repo.rs).

Modelling choices:
- `DateTime<Utc>` instants and `TimeDelta` durations are modelled as `Int`.
- `Uuid` identifiers are modelled as `Nat`; the random minting of
  `Uuid::new_v4()` is modelled by passing the freshly minted identifier as
  an explicit argument to the insert operations.
- A slot's contents (`Mutex<Option<...>>`) is an `Option`; `none` means the
  occupant is currently checked out. The `HashMap<Uuid, SlotPtr<Blob>>` is
  an association list `List (Nat × Option Blob)`.
- A Rust `panic!` is modelled as a distinct outcome constructor carrying the
  panic message.
-/

namespace Metime

/-- A set of continuous points in time describing when an event occurs; if not
instantaneous, the start endpoint is included and the end endpoint excluded
(half-open interval). Mirrors `TimeSpan` in src/src/domain.rs. -/
inductive TimeSpan where
  | instant (time : Int)
  | interval (start : Int) (duration : Int)
deriving DecidableEq

/-- Returns the earliest point of the time span (src/src/domain.rs,
`TimeSpan::earliest`). -/
def TimeSpan.earliest : TimeSpan → Int
  | .instant time => time
  | .interval start _ => start

/-- Modelled from the spec: `latest()` is described in the spec but absent from
src/; the spec says `latest()` yields `start+duration` (or `t` for `Instant`). -/
def TimeSpan.latest : TimeSpan → Int
  | .instant time => time
  | .interval start duration => start + duration

/-- Modelled from the spec: membership of a point in a span is described only by
the half-open-interval doc comment on `TimeSpan` (start included, end excluded);
no such method exists under src/. -/
def TimeSpan.contains : TimeSpan → Int → Prop
  | .instant time, p => p = time
  | .interval start duration, p => start ≤ p ∧ p < start + duration

/-- Mirrors `EventBody` in src/src/domain.rs. -/
structure EventBody where
  summary : String
  description : String
deriving DecidableEq

/-- Mirrors `EventInstance` in src/src/domain.rs; `body` is the identifier of
the referenced `EventBody`. -/
structure EventInstance where
  time_span : TimeSpan
  body : Nat
deriving DecidableEq

/-- Mirrors `Timeline` in src/src/domain.rs: a `BTreeMap<DateTime<Utc>,
EventInstanceId>` is modelled as a list of (time, id) pairs kept sorted by
strictly increasing time. -/
structure Timeline where
  events : List (Int × Nat)
deriving DecidableEq

/-- Mirrors `Timeline::default` (src/src/domain.rs): an empty map. -/
def Timeline.default : Timeline := ⟨[]⟩

/-- Mirrors `Timeline::new` (src/src/domain.rs), which delegates to default. -/
def Timeline.new : Timeline := Timeline.default

/-- The `BTreeMap` representation invariant: keys strictly increasing. -/
def Timeline.Sorted (tl : Timeline) : Prop :=
  tl.events.Pairwise (fun a b => a.1 < b.1)

/-- Insertion into the sorted event list, overwriting an equal key; this is the
`BTreeMap::insert` semantics on the model's sorted-list representation. -/
def insertEvent : List (Int × Nat) → Int → Nat → List (Int × Nat)
  | [], t, id => [(t, id)]
  | (t', id') :: rest, t, id =>
    if t < t' then (t, id) :: (t', id') :: rest
    else if t = t' then (t, id) :: rest
    else (t', id') :: insertEvent rest t id

/-- Modelled from the spec: `record(time, instance_id)` is described in the spec
but not defined under src/; it inserts/overwrites the mapping for `time`, which
on the `BTreeMap` field `Timeline.events` present in src/ is map insertion. -/
def Timeline.record (tl : Timeline) (time : Int) (id : Nat) : Timeline :=
  ⟨insertEvent tl.events time id⟩

/-- Modelled from the spec: `range(from, to)` is described in the spec but not
defined under src/; it yields the ascending (time, id) pairs with
`from ≤ time < to`, which on the `BTreeMap` field present in src/ is the
half-open range query. -/
def Timeline.range (tl : Timeline) (lo hi : Int) : List (Int × Nat) :=
  tl.events.filter (fun p => decide (lo ≤ p.1 ∧ p.1 < hi))

/-- Mirrors `Blob` in src/src/repository/memory_repo.rs: the closed tagged union
of entity kinds held in blob slots. -/
inductive Blob where
  | eventInstance (data : EventInstance)
  | eventBody (data : EventBody)
deriving DecidableEq

/-- Mirrors `RepoRetrievalError` in src/src/repository.rs. -/
inductive RepoRetrievalError where
  | alreadyRetrieved
  | idNotFound
deriving DecidableEq

/-- Mirrors the `TryInto<Box<EventInstance>>` conversion derived on `Blob`:
extract an `EventInstance` or give the input back unchanged. -/
def Blob.tryIntoInstance : Blob → Except Blob EventInstance
  | .eventInstance data => .ok data
  | b => .error b

/-- Mirrors the `TryInto<Box<EventBody>>` conversion derived on `Blob`. -/
def Blob.tryIntoBody : Blob → Except Blob EventBody
  | .eventBody data => .ok data
  | b => .error b

/-- Mirrors `MemoryRepo` in src/src/repository/memory_repo.rs. The timeline
slot's contents is `none` while checked out; each blob slot likewise. -/
structure MemoryRepo where
  timeline : Option Timeline
  blobs : List (Nat × Option Blob)
deriving DecidableEq

/-- Mirrors `MemoryRepo::new`, i.e. `Default`: the timeline slot is seeded
occupied with `Timeline::default` (`SlotPtr::default` wraps
`Some(T::default())`), and the blob map is empty. -/
def MemoryRepo.new : MemoryRepo := ⟨some Timeline.default, []⟩

/-- `HashMap::get` on the association-list model. -/
def assocGet {α : Type} : List (Nat × α) → Nat → Option α
  | [], _ => none
  | (k, v) :: rest, id => if k = id then some v else assocGet rest id

/-- `HashMap::insert` (add or overwrite) on the association-list model. -/
def assocPut {α : Type} : List (Nat × α) → Nat → α → List (Nat × α)
  | [], id, v => [(id, v)]
  | (k, w) :: rest, id, v =>
    if k = id then (id, v) :: rest else (k, w) :: assocPut rest id v

/-- Mirrors `RepoRef` in src/src/repository/memory_repo.rs: the checked-out
data together with the key of the home slot it returns to on drop. -/
structure RepoRef (T : Type) where
  data : T
  home_slot : Nat
deriving DecidableEq

/-- A checked-out handle on the timeline slot (a `RepoRef` whose home slot is
the dedicated `MemoryRepo.timeline` slot). -/
structure TimelineRef where
  data : Timeline
deriving DecidableEq

/-- Outcome of a checkout attempt: a handle plus the post-state, a typed
retrieval error (state unchanged), or a Rust `panic!` with its message and the
state at the moment of the panic. -/
inductive LendResult (T : Type) where
  | ok (ref : RepoRef T) (repo : MemoryRepo)
  | err (e : RepoRetrievalError) (repo : MemoryRepo)
  | panic (msg : String) (repo : MemoryRepo)
deriving DecidableEq

/-- Mirrors `MemoryRepo::lend_from_blobs` combined with the free function
`lend_item` (src/src/repository/memory_repo.rs lines 29-41 and 115-138):
look up the slot (`IdNotFound` if absent), take its contents
(`AlreadyRetrieved` if already taken), convert to the requested type; on a
type mismatch the value is put back and the code panics. -/
def MemoryRepo.lend_from_blobs {T : Type} (repo : MemoryRepo) (id : Nat)
    (convert_item : Blob → Except Blob T) : LendResult T :=
  match assocGet repo.blobs id with
  | none => .err .idNotFound repo
  | some contents =>
    match contents with
    | none => .err .alreadyRetrieved repo
    | some blob =>
      match convert_item blob with
      | .ok correct_type =>
          .ok ⟨correct_type, id⟩ { repo with blobs := assocPut repo.blobs id none }
      | .error other_type =>
          .panic ("entry was not the expected type")
            { repo with blobs := assocPut repo.blobs id (some other_type) }

/-- Mirrors `MemoryRepo::get_event_instance` (Repository impl). -/
def MemoryRepo.get_event_instance (repo : MemoryRepo) (id : Nat) :
    LendResult EventInstance :=
  repo.lend_from_blobs id Blob.tryIntoInstance

/-- Mirrors `MemoryRepo::get_event_body` (Repository impl). -/
def MemoryRepo.get_event_body (repo : MemoryRepo) (id : Nat) :
    LendResult EventBody :=
  repo.lend_from_blobs id Blob.tryIntoBody

/-- Mirrors `MemoryRepo::get_timeline`: `lend_item(self.timeline.clone(), Ok)`.
The conversion never fails, so the outcome is just `Option`: `none` when the
timeline slot's contents is already taken, otherwise the handle and the
post-state with the contents removed. -/
def MemoryRepo.get_timeline (repo : MemoryRepo) :
    Option (TimelineRef × MemoryRepo) :=
  match repo.timeline with
  | none => none
  | some tl => some (⟨tl⟩, { repo with timeline := none })

/-- Mirrors `MemoryRepo::add_event_instance`: insert a new slot constructed
empty under the freshly minted `id`; the returned handle holds the data and
will fill the slot when dropped. -/
def MemoryRepo.add_event_instance (repo : MemoryRepo) (id : Nat)
    (inst : EventInstance) : MemoryRepo × Nat × RepoRef EventInstance :=
  ({ repo with blobs := assocPut repo.blobs id none }, id, ⟨inst, id⟩)

/-- Mirrors `MemoryRepo::add_event_body`, symmetric to the instance case. -/
def MemoryRepo.add_event_body (repo : MemoryRepo) (id : Nat)
    (body : EventBody) : MemoryRepo × Nat × RepoRef EventBody :=
  ({ repo with blobs := assocPut repo.blobs id none }, id, ⟨body, id⟩)

/-- Outcome of releasing a handle: the post-state, or a Rust `panic!`. -/
inductive DropResult where
  | ok (repo : MemoryRepo)
  | panic (msg : String)
deriving DecidableEq

/-- Mirrors `impl Drop for RepoRef` (src/src/repository/memory_repo.rs lines
221-239): if the home slot is already filled, panic; otherwise move the data
back into the slot. `into` is the `Into<Blob>` conversion of the data. -/
def RepoRef.drop {T : Type} (into : T → Blob) (repo : MemoryRepo)
    (ref : RepoRef T) : DropResult :=
  match assocGet repo.blobs ref.home_slot with
  | some (some _) =>
      .panic ("RepoRef was dropped but its home slot was already filled")
  | _ => .ok { repo with blobs := assocPut repo.blobs ref.home_slot (some (into ref.data)) }

/-- The same drop discipline for a handle on the dedicated timeline slot. -/
def TimelineRef.drop (repo : MemoryRepo) (ref : TimelineRef) : DropResult :=
  match repo.timeline with
  | some _ =>
      .panic ("RepoRef was dropped but its home slot was already filled")
  | none => .ok { repo with timeline := some ref.data }

/-- Modelled from the spec: the repository facade operation `add_event` is
described in the spec (section 4.4) but absent from src/. In the spec's order
it (1) inserts the `EventBody`, (2) inserts the `EventInstance` referencing the
new body's identifier, (3) checks out the Timeline slot and records the
instance under `time_span.earliest()`, (4) releases the Timeline handle, and
(5) returns both new identifiers and the still-open handles. A failed timeline
checkout is a fatal internal error, modelled as `none`. The two freshly minted
identifiers are explicit arguments. -/
def MemoryRepo.add_event (repo : MemoryRepo) (bodyId instId : Nat)
    (span : TimeSpan) (title descr : String) :
    Option (MemoryRepo × Nat × Nat × RepoRef EventInstance × RepoRef EventBody) :=
  let (repo1, bid, bodyRef) := repo.add_event_body bodyId ⟨title, descr⟩
  let (repo2, iid, instRef) := repo1.add_event_instance instId ⟨span, bid⟩
  match repo2.get_timeline with
  | none => none
  | some (tlRef, repo3) =>
    match TimelineRef.drop repo3 ⟨tlRef.data.record span.earliest iid⟩ with
    | .panic _ => none
    | .ok repo4 => some (repo4, iid, bid, instRef, bodyRef)

/-- A sample stored body used by concrete witnesses. -/
def sampleBody : EventBody := ⟨("standup"), ("daily")⟩

/-- A sample stored instance used by concrete witnesses. -/
def sampleInstance : EventInstance := ⟨.instant 100, 7⟩

/-- A repo holding one occupied instance slot under id 1. -/
def repoWithInstance : MemoryRepo :=
  ⟨some Timeline.default, [(1, some (.eventInstance sampleInstance))]⟩

/-- A repo holding one occupied body slot under id 7. -/
def repoWithBody : MemoryRepo :=
  ⟨some Timeline.default, [(7, some (.eventBody sampleBody))]⟩

/-- Reading back a key just written. -/
theorem assocGet_assocPut_self {α : Type} (l : List (Nat × α)) (id : Nat) (v : α) :
    assocGet (assocPut l id v) id = some v := by
  induction l with
  | nil => simp [assocPut, assocGet]
  | cons hd rest ih =>
    obtain ⟨k, w⟩ := hd
    by_cases hk : k = id
    · subst hk; simp [assocPut, assocGet]
    · simp [assocPut, assocGet, hk, ih]

/-- Writing one key leaves every other key's slot unchanged. -/
theorem assocGet_assocPut_ne {α : Type} (l : List (Nat × α)) (id id2 : Nat)
    (v : α) (h : id ≠ id2) :
    assocGet (assocPut l id v) id2 = assocGet l id2 := by
  induction l with
  | nil => simp [assocPut, assocGet, h]
  | cons hd rest ih =>
    obtain ⟨k, w⟩ := hd
    by_cases hk : k = id
    · subst hk; simp [assocPut, assocGet, h]
    · simp [assocPut, assocGet, hk, ih]

/-- Writing back the value a key already holds is a no-op on the list. -/
theorem assocPut_self_of_get {α : Type} (l : List (Nat × α)) (id : Nat) (v : α)
    (h : assocGet l id = some v) : assocPut l id v = l := by
  induction l with
  | nil => simp [assocGet] at h
  | cons hd rest ih =>
    obtain ⟨k, w⟩ := hd
    by_cases hk : k = id
    · subst hk
      simp [assocGet] at h
      simp [assocPut, h]
    · simp [assocGet, hk] at h
      simp [assocPut, hk, ih h]

/-- C1: for every slot, at most one live handle exists at an instant: after a
successful checkout of an identifier (both `get_event_instance` and
`get_event_body` are instances of `lend_from_blobs`), a second checkout of
the same identifier — of either type — fails with `AlreadyRetrieved` and
returns the store state unchanged, so the first handle's view is intact. -/
theorem exclusive_checkout_conflict {T : Type} (convert : Blob → Except Blob T)
    (repo repo1 : MemoryRepo) (id : Nat) (h : RepoRef T)
    (hok : repo.lend_from_blobs id convert = .ok h repo1) :
    repo1.get_event_instance id = .err .alreadyRetrieved repo1 ∧
    repo1.get_event_body id = .err .alreadyRetrieved repo1 := by
  cases hget : assocGet repo.blobs id with
  | none => simp [MemoryRepo.lend_from_blobs, hget] at hok
  | some contents =>
    cases contents with
    | none => simp [MemoryRepo.lend_from_blobs, hget] at hok
    | some blob =>
      cases hcv : convert blob with
      | error o => simp [MemoryRepo.lend_from_blobs, hget, hcv] at hok
      | ok t =>
        simp [MemoryRepo.lend_from_blobs, hget, hcv] at hok
        obtain ⟨h1, h2⟩ := hok
        subst h2
        constructor <;>
          simp [MemoryRepo.get_event_instance, MemoryRepo.get_event_body,
            MemoryRepo.lend_from_blobs, assocGet_assocPut_self]

/-- Concrete run of the exclusivity theorem on a one-instance store. -/
theorem exclusive_checkout_conflict_witness :
    repoWithInstance.lend_from_blobs 1 Blob.tryIntoInstance =
      .ok ⟨sampleInstance, 1⟩ ⟨some Timeline.default, [(1, none)]⟩ ∧
    ((⟨some Timeline.default, [(1, none)]⟩ : MemoryRepo).get_event_instance 1 =
        .err .alreadyRetrieved ⟨some Timeline.default, [(1, none)]⟩ ∧
      (⟨some Timeline.default, [(1, none)]⟩ : MemoryRepo).get_event_body 1 =
        .err .alreadyRetrieved ⟨some Timeline.default, [(1, none)]⟩) :=
  ⟨rfl, exclusive_checkout_conflict Blob.tryIntoInstance repoWithInstance
    ⟨some Timeline.default, [(1, none)]⟩ 1 ⟨sampleInstance, 1⟩ rfl⟩

/-- C2 (divergence evidence): on a store holding an `EventBody` under id 7,
the wrong-typed checkout `get_event_instance 7` panics with message "entry was
not the expected type" — no typed error is returned to the caller. The value
is put back before the panic, so the state at the panic equals the original
store, and the correct-typed checkout on that same state still succeeds with
the untouched original value. -/
theorem wrong_type_checkout_panics :
    repoWithBody.get_event_instance 7 =
      .panic ("entry was not the expected type") repoWithBody ∧
    repoWithBody.get_event_body 7 =
      .ok ⟨sampleBody, 7⟩ ⟨some Timeline.default, [(7, none)]⟩ := by
  constructor <;> rfl

/-- C4: a handle release into an already-filled home slot panics rather than
surfacing a typed error — for blob slots of either entity type and for the
timeline slot alike. -/
theorem drop_into_filled_slot_panics {T : Type} (into : T → Blob)
    (repo : MemoryRepo) (ref : RepoRef T) (b : Blob)
    (hocc : assocGet repo.blobs ref.home_slot = some (some b))
    (tref : TimelineRef) (tl : Timeline) (htl : repo.timeline = some tl) :
    RepoRef.drop into repo ref =
      .panic ("RepoRef was dropped but its home slot was already filled") ∧
    TimelineRef.drop repo tref =
      .panic ("RepoRef was dropped but its home slot was already filled") := by
  constructor
  · simp [RepoRef.drop, hocc]
  · simp [TimelineRef.drop, htl]

/-- Concrete run of the fatal-release theorem on a one-instance store. -/
theorem drop_into_filled_slot_panics_witness :
    assocGet repoWithInstance.blobs 1 =
      some (some (.eventInstance sampleInstance)) ∧
    repoWithInstance.timeline = some Timeline.default ∧
    (RepoRef.drop Blob.eventInstance repoWithInstance ⟨sampleInstance, 1⟩ =
        .panic ("RepoRef was dropped but its home slot was already filled") ∧
      TimelineRef.drop repoWithInstance ⟨Timeline.default⟩ =
        .panic ("RepoRef was dropped but its home slot was already filled")) :=
  ⟨rfl, rfl, drop_into_filled_slot_panics Blob.eventInstance repoWithInstance
    ⟨sampleInstance, 1⟩ (.eventInstance sampleInstance) rfl
    ⟨Timeline.default⟩ Timeline.default rfl⟩

/-- C7: any checkout on an identifier unknown to the store fails with
`IdNotFound` and leaves the store unchanged, for every store state. -/
theorem unknown_id_checkout_not_found (repo : MemoryRepo) (id : Nat)
    (h : assocGet repo.blobs id = none) :
    repo.get_event_instance id = .err .idNotFound repo ∧
    repo.get_event_body id = .err .idNotFound repo := by
  constructor <;>
    simp [MemoryRepo.get_event_instance, MemoryRepo.get_event_body,
      MemoryRepo.lend_from_blobs, h]

/-- Concrete run of the unknown-identifier theorem on a fresh store. -/
theorem unknown_id_checkout_not_found_witness :
    assocGet MemoryRepo.new.blobs 0 = none ∧
    (MemoryRepo.new.get_event_instance 0 = .err .idNotFound MemoryRepo.new ∧
      MemoryRepo.new.get_event_body 0 = .err .idNotFound MemoryRepo.new) :=
  ⟨rfl, unknown_id_checkout_not_found MemoryRepo.new 0 rfl⟩

/-- C8: for every instant `t` and duration `d ≥ 0`, `earliest`/`latest` of
`Instant(t)` are both `t`, `earliest`/`latest` of `Interval(t, d)` are `t` and
`t + d`, and the point `t + d` itself is excluded from the interval span. -/
theorem timespan_earliest_latest (t d : Int) (hd : 0 ≤ d) :
    (TimeSpan.instant t).earliest = t ∧ (TimeSpan.instant t).latest = t ∧
    (TimeSpan.interval t d).earliest = t ∧
    (TimeSpan.interval t d).latest = t + d ∧
    ¬ (TimeSpan.interval t d).contains (t + d) := by
  refine ⟨rfl, rfl, rfl, rfl, ?_⟩
  simp [TimeSpan.contains]

/-- Concrete run of the time-span theorem at `t = 0`, `d = 120`. -/
theorem timespan_earliest_latest_witness :
    (0 : Int) ≤ 120 ∧
    ((TimeSpan.instant 0).earliest = 0 ∧ (TimeSpan.instant 0).latest = 0 ∧
      (TimeSpan.interval 0 120).earliest = 0 ∧
      (TimeSpan.interval 0 120).latest = 0 + 120 ∧
      ¬ (TimeSpan.interval 0 120).contains (0 + 120)) :=
  ⟨by decide, timespan_earliest_latest 0 120 (by decide)⟩

/-- C10: a freshly constructed `MemoryRepo` yields a timeline handle holding
the default (empty) timeline, and `get_timeline` returns `none` exactly when
the timeline slot's occupant is currently checked out. -/
theorem fresh_repo_timeline_available :
    MemoryRepo.new.get_timeline = some (⟨Timeline.default⟩, ⟨none, []⟩) ∧
    Timeline.default.events = [] ∧
    (∀ repo : MemoryRepo, repo.get_timeline = none ↔ repo.timeline = none) := by
  refine ⟨rfl, rfl, ?_⟩
  intro repo
  cases h : repo.timeline <;> simp [MemoryRepo.get_timeline, h]

/-- C3: round-trip with mutation — for every stored entity (both entity types,
via their derived `Into`/`TryInto` pair `into`/`convert`), checking it out,
mutating the value through the handle, and releasing the handle succeeds, and
a second checkout of the same identifier yields the mutated value. -/
theorem round_trip_mutation {T : Type} (into : T → Blob)
    (convert : Blob → Except Blob T) (hconv : ∀ v : T, convert (into v) = .ok v)
    (repo repo1 : MemoryRepo) (id : Nat) (h : RepoRef T) (v2 : T)
    (hok : repo.lend_from_blobs id convert = .ok h repo1) :
    RepoRef.drop into repo1 ⟨v2, h.home_slot⟩ =
      .ok { repo1 with
              blobs := assocPut repo1.blobs h.home_slot (some (into v2)) } ∧
    MemoryRepo.lend_from_blobs
        { repo1 with
            blobs := assocPut repo1.blobs h.home_slot (some (into v2)) }
        id convert =
      .ok ⟨v2, id⟩
        { repo1 with
            blobs := assocPut
              (assocPut repo1.blobs h.home_slot (some (into v2))) id none } := by
  cases hget : assocGet repo.blobs id with
  | none => simp [MemoryRepo.lend_from_blobs, hget] at hok
  | some contents =>
    cases contents with
    | none => simp [MemoryRepo.lend_from_blobs, hget] at hok
    | some blob =>
      cases hcv : convert blob with
      | error o => simp [MemoryRepo.lend_from_blobs, hget, hcv] at hok
      | ok t =>
        simp [MemoryRepo.lend_from_blobs, hget, hcv] at hok
        obtain ⟨h1, h2⟩ := hok
        subst h2
        subst h1
        constructor
        · simp [RepoRef.drop, assocGet_assocPut_self]
        · simp [MemoryRepo.lend_from_blobs, assocGet_assocPut_self, hconv]

/-- Concrete run of the round-trip theorem: the stored instance is checked
out, its time span moved to 200, released, and checked out again mutated. -/
theorem round_trip_mutation_witness :
    RepoRef.drop Blob.eventInstance ⟨some Timeline.default, [(1, none)]⟩
        ⟨⟨.instant 200, 7⟩, 1⟩ =
      .ok ⟨some Timeline.default,
            [(1, some (.eventInstance ⟨.instant 200, 7⟩))]⟩ ∧
    MemoryRepo.lend_from_blobs
        ⟨some Timeline.default, [(1, some (.eventInstance ⟨.instant 200, 7⟩))]⟩
        1 Blob.tryIntoInstance =
      .ok ⟨⟨.instant 200, 7⟩, 1⟩ ⟨some Timeline.default, [(1, none)]⟩ := by
  exact round_trip_mutation Blob.eventInstance Blob.tryIntoInstance
    (fun v => rfl) repoWithInstance ⟨some Timeline.default, [(1, none)]⟩ 1
    ⟨sampleInstance, 1⟩ ⟨.instant 200, 7⟩ rfl

/-- Every element of an insertion result is the inserted pair or an original. -/
theorem mem_insertEvent (l : List (Int × Nat)) (t : Int) (id : Nat)
    (p : Int × Nat) (hp : p ∈ insertEvent l t id) : p = (t, id) ∨ p ∈ l := by
  induction l with
  | nil =>
    simp only [insertEvent, List.mem_singleton] at hp
    exact Or.inl hp
  | cons hd rest ih =>
    obtain ⟨t', id'⟩ := hd
    simp only [insertEvent] at hp
    split_ifs at hp with h1 h2
    · rcases List.mem_cons.mp hp with h | h
      · exact Or.inl h
      · exact Or.inr h
    · rcases List.mem_cons.mp hp with h | h
      · exact Or.inl h
      · exact Or.inr (List.mem_cons_of_mem _ h)
    · rcases List.mem_cons.mp hp with h | h
      · exact Or.inr (h ▸ List.mem_cons_self _ _)
      · rcases ih h with h' | h'
        · exact Or.inl h'
        · exact Or.inr (List.mem_cons_of_mem _ h')

/-- Insertion preserves the sorted-keys invariant of the timeline model. -/
theorem insertEvent_sorted (l : List (Int × Nat)) (t : Int) (id : Nat)
    (hs : l.Pairwise (fun a b => a.1 < b.1)) :
    (insertEvent l t id).Pairwise (fun a b => a.1 < b.1) := by
  induction l with
  | nil => simp [insertEvent]
  | cons hd rest ih =>
    obtain ⟨t', id'⟩ := hd
    rw [List.pairwise_cons] at hs
    obtain ⟨hall, hrest⟩ := hs
    simp only [insertEvent]
    split_ifs with h1 h2
    · refine List.pairwise_cons.mpr ⟨?_, List.pairwise_cons.mpr ⟨hall, hrest⟩⟩
      intro p hp
      rcases List.mem_cons.mp hp with h | h
      · simp [h, h1]
      · have := hall p h
        simp only at this ⊢
        omega
    · refine List.pairwise_cons.mpr ⟨?_, hrest⟩
      intro p hp
      have := hall p hp
      simp only at this ⊢
      omega
    · refine List.pairwise_cons.mpr ⟨?_, ih hrest⟩
      intro p hp
      rcases mem_insertEvent rest t id p hp with h | h
      · simp only [h]
        omega
      · exact hall p h

/-- On a sorted list, a pair carrying the inserted key is in the insertion
result exactly when it carries the newly inserted identifier (the overwrite
discards any previous identifier at that key). -/
theorem mem_insertEvent_self_key (l : List (Int × Nat)) (t : Int)
    (id id' : Nat) (hs : l.Pairwise (fun a b => a.1 < b.1)) :
    ((t, id') ∈ insertEvent l t id ↔ id' = id) := by
  induction l with
  | nil => simp [insertEvent]
  | cons hd rest ih =>
    obtain ⟨t', i'⟩ := hd
    rw [List.pairwise_cons] at hs
    obtain ⟨hall, hrest⟩ := hs
    simp only [insertEvent]
    split_ifs with h1 h2
    · simp only [List.mem_cons, Prod.mk.injEq]
      constructor
      · rintro (⟨-, h⟩ | ⟨h, -⟩ | h)
        · exact h
        · omega
        · have := hall _ h
          simp only at this
          omega
      · intro h
        exact Or.inl ⟨trivial, h⟩
    · simp only [List.mem_cons, Prod.mk.injEq]
      constructor
      · rintro (⟨-, h⟩ | h)
        · exact h
        · have := hall _ h
          simp only at this
          omega
      · intro h
        exact Or.inl ⟨trivial, h⟩
    · simp only [List.mem_cons, Prod.mk.injEq]
      rw [ih hrest] at *
      constructor
      · rintro (⟨h, -⟩ | h)
        · omega
        · exact h
      · intro h
        exact Or.inr h

/-- Inserting a key larger than every key present appends at the end. -/
theorem insertEvent_append_of_lt (l : List (Int × Nat)) (t : Int) (id : Nat)
    (h : ∀ p ∈ l, p.1 < t) : insertEvent l t id = l ++ [(t, id)] := by
  induction l with
  | nil => rfl
  | cons hd rest ih =>
    obtain ⟨t', id'⟩ := hd
    have ht' : t' < t := h (t', id') (List.mem_cons_self _ _)
    simp only [insertEvent]
    rw [if_neg (by omega), if_neg (by omega)]
    rw [ih (fun p hp => h p (List.mem_cons_of_mem _ hp))]
    rfl

/-- C5: timeline range semantics — `range lo hi` yields exactly the recorded
(time, id) pairs with `lo ≤ time < hi`, in ascending time order; and with
entries recorded at `t1 < t2 < t3` on an empty timeline, `range t1 t3` is
exactly `[(t1,id1),(t2,id2)]` while `range t2 t2` is empty (half-open). -/
theorem timeline_range_semantics (tl : Timeline) (hsorted : tl.Sorted)
    (lo hi : Int) (hlohi : lo ≤ hi) (t1 t2 t3 : Int) (id1 id2 id3 : Nat)
    (h12 : t1 < t2) (h23 : t2 < t3) :
    (∀ t id, (t, id) ∈ tl.range lo hi ↔
        (t, id) ∈ tl.events ∧ lo ≤ t ∧ t < hi) ∧
    (tl.range lo hi).Pairwise (fun a b => a.1 < b.1) ∧
    (((Timeline.default.record t1 id1).record t2 id2).record t3 id3).range
        t1 t3 = [(t1, id1), (t2, id2)] ∧
    (((Timeline.default.record t1 id1).record t2 id2).record t3 id3).range
        t2 t2 = [] := by
  have e2 : insertEvent [(t1, id1)] t2 id2 = [(t1, id1), (t2, id2)] := by
    rw [insertEvent_append_of_lt [(t1, id1)] t2 id2 (by
      intro p hp
      simp only [List.mem_singleton] at hp
      simp only [hp]
      omega)]
    simp
  have e3 : insertEvent [(t1, id1), (t2, id2)] t3 id3
      = [(t1, id1), (t2, id2), (t3, id3)] := by
    rw [insertEvent_append_of_lt [(t1, id1), (t2, id2)] t3 id3 (by
      intro p hp
      rcases List.mem_cons.mp hp with h | h
      · simp only [h]
        omega
      · simp only [List.mem_singleton] at h
        simp only [h]
        omega)]
    simp
  have hlist :
      (((Timeline.default.record t1 id1).record t2 id2).record t3 id3).events
        = [(t1, id1), (t2, id2), (t3, id3)] := by
    show insertEvent (insertEvent (insertEvent [] t1 id1) t2 id2) t3 id3 = _
    rw [show insertEvent [] t1 id1 = [(t1, id1)] from rfl, e2, e3]
  refine ⟨?_, ?_, ?_, ?_⟩
  · intro t id
    simp [Timeline.range, List.mem_filter, and_assoc]
  · exact hsorted.filter _
  · have f1 : t1 < t3 := by omega
    have f2 : t1 ≤ t2 := by omega
    simp [Timeline.range, hlist, List.filter_cons, h12, h23, f1, f2]
  · have g1 : ¬ t2 ≤ t1 := by omega
    have g2 : ¬ t3 < t2 := by omega
    simp [Timeline.range, hlist, List.filter_cons, g1, g2]

/-- Concrete run of the range-semantics theorem on a three-entry timeline. -/
theorem timeline_range_semantics_witness :
    ((⟨[(10, 1), (20, 2)]⟩ : Timeline).Sorted ∧ (5 : Int) ≤ 25 ∧
      (10 : Int) < 20 ∧ (20 : Int) < 30) ∧
    ((∀ t id, (t, id) ∈ (⟨[(10, 1), (20, 2)]⟩ : Timeline).range 5 25 ↔
        (t, id) ∈ (⟨[(10, 1), (20, 2)]⟩ : Timeline).events ∧
          5 ≤ t ∧ t < 25) ∧
      ((⟨[(10, 1), (20, 2)]⟩ : Timeline).range 5 25).Pairwise
        (fun a b => a.1 < b.1) ∧
      (((Timeline.default.record 10 1).record 20 2).record 30 3).range 10 30
        = [(10, 1), (20, 2)] ∧
      (((Timeline.default.record 10 1).record 20 2).record 30 3).range 20 20
        = []) :=
  ⟨⟨by simp [Timeline.Sorted], by decide, by decide, by decide⟩,
    timeline_range_semantics ⟨[(10, 1), (20, 2)]⟩ (by simp [Timeline.Sorted])
      5 25 (by decide) 10 20 30 1 2 3 (by decide) (by decide)⟩

/-- C6: timeline collision overwrite — recording two distinct identifiers at
the identical time `t` through the checked-out timeline handle leaves the
timeline holding only the most recently recorded identifier for `t`, while the
first instance remains fetchable by its own identifier via instance checkout. -/
theorem timeline_collision_overwrite (repo : MemoryRepo) (tl : Timeline)
    (hs : tl.Sorted) (t : Int) (id1 id2 : Nat) (inst1 : EventInstance)
    (hne : id1 ≠ id2)
    (hinst : assocGet repo.blobs id1 = some (some (.eventInstance inst1)))
    (htl : repo.timeline = some tl) :
    repo.get_timeline = some (⟨tl⟩, { repo with timeline := none }) ∧
    TimelineRef.drop { repo with timeline := none }
        ⟨(tl.record t id1).record t id2⟩ =
      .ok { repo with timeline := some ((tl.record t id1).record t id2) } ∧
    (∀ id, (t, id) ∈ ((tl.record t id1).record t id2).events ↔ id = id2) ∧
    MemoryRepo.get_event_instance
        { repo with timeline := some ((tl.record t id1).record t id2) } id1 =
      .ok ⟨inst1, id1⟩
        { repo with
            timeline := some ((tl.record t id1).record t id2)
            blobs := assocPut repo.blobs id1 none } := by
  refine ⟨by simp [MemoryRepo.get_timeline, htl], by simp [TimelineRef.drop],
    ?_, ?_⟩
  · intro id
    exact mem_insertEvent_self_key (insertEvent tl.events t id1) t id2 id
      (insertEvent_sorted tl.events t id1 hs)
  · simp [MemoryRepo.get_event_instance, MemoryRepo.lend_from_blobs, hinst,
      Blob.tryIntoInstance]

/-- Concrete run of the collision theorem: ids 1 and 2 recorded at time 50. -/
theorem timeline_collision_overwrite_witness :
    (Timeline.default.Sorted ∧ (1 : Nat) ≠ 2 ∧
      assocGet repoWithInstance.blobs 1 =
        some (some (.eventInstance sampleInstance)) ∧
      repoWithInstance.timeline = some Timeline.default) ∧
    (repoWithInstance.get_timeline =
        some (⟨Timeline.default⟩, { repoWithInstance with timeline := none }) ∧
      TimelineRef.drop { repoWithInstance with timeline := none }
          ⟨(Timeline.default.record 50 1).record 50 2⟩ =
        .ok { repoWithInstance with
                timeline := some ((Timeline.default.record 50 1).record 50 2) } ∧
      (∀ id, (50, id) ∈ ((Timeline.default.record 50 1).record 50 2).events ↔
          id = 2) ∧
      MemoryRepo.get_event_instance
          { repoWithInstance with
              timeline := some ((Timeline.default.record 50 1).record 50 2) }
          1 =
        .ok ⟨sampleInstance, 1⟩
          { repoWithInstance with
              timeline := some ((Timeline.default.record 50 1).record 50 2)
              blobs := assocPut repoWithInstance.blobs 1 none }) :=
  ⟨⟨List.Pairwise.nil, by decide, rfl, rfl⟩,
    timeline_collision_overwrite repoWithInstance Timeline.default
      List.Pairwise.nil 50 1 2 sampleInstance (by decide) rfl rfl⟩

/-- C9: the `add_event` facade, composed from the store's insert operations
and the timeline checkout in the spec's order, returns both new identifiers
and still-open handles to the new `EventInstance` and `EventBody` (their slots
remain taken), releases the timeline with the instance recorded under
`time_span.earliest()`, a later release-then-checkout of the body yields the
stored title/description, and on an initially empty timeline a day range
around the start time yields exactly the one new (time, instanceId) pair. -/
theorem add_event_contract (repo : MemoryRepo) (tl : Timeline)
    (htl : repo.timeline = some tl) (bodyId instId : Nat)
    (hne : bodyId ≠ instId) (span : TimeSpan) (title descr : String) :
    repo.add_event bodyId instId span title descr =
      some (⟨some (tl.record span.earliest instId),
              assocPut (assocPut repo.blobs bodyId none) instId none⟩,
        instId, bodyId, ⟨⟨span, bodyId⟩, instId⟩, ⟨⟨title, descr⟩, bodyId⟩) ∧
    assocGet (assocPut (assocPut repo.blobs bodyId none) instId none) bodyId
      = some none ∧
    assocGet (assocPut (assocPut repo.blobs bodyId none) instId none) instId
      = some none ∧
    (∃ repo5,
      RepoRef.drop Blob.eventBody
          ⟨some (tl.record span.earliest instId),
            assocPut (assocPut repo.blobs bodyId none) instId none⟩
          ⟨⟨title, descr⟩, bodyId⟩ = .ok repo5 ∧
      repo5.get_event_body bodyId =
        .ok ⟨⟨title, descr⟩, bodyId⟩
          { repo5 with blobs := assocPut repo5.blobs bodyId none }) ∧
    (tl = Timeline.default → ∀ lo hi, lo ≤ span.earliest →
      span.earliest < hi →
      (tl.record span.earliest instId).range lo hi
        = [(span.earliest, instId)]) := by
  have hget : assocGet (assocPut (assocPut repo.blobs bodyId none) instId none)
      bodyId = some none := by
    rw [assocGet_assocPut_ne _ instId bodyId _ (fun h => hne h.symm),
      assocGet_assocPut_self]
  refine ⟨?_, hget, assocGet_assocPut_self _ _ _, ?_, ?_⟩
  · simp [MemoryRepo.add_event, MemoryRepo.add_event_body,
      MemoryRepo.add_event_instance, MemoryRepo.get_timeline, htl,
      TimelineRef.drop]
  · refine ⟨⟨some (tl.record span.earliest instId),
      assocPut (assocPut (assocPut repo.blobs bodyId none) instId none) bodyId
        (some (.eventBody ⟨title, descr⟩))⟩, ?_, ?_⟩
    · simp [RepoRef.drop, hget]
    · simp [MemoryRepo.get_event_body, MemoryRepo.lend_from_blobs,
        assocGet_assocPut_self, Blob.tryIntoBody]
  · rintro rfl lo hi hlo hhi
    have h1 : lo ≤ span.earliest ∧ span.earliest < hi := ⟨hlo, hhi⟩
    simp [Timeline.record, Timeline.default, insertEvent, Timeline.range,
      List.filter_cons, hlo, hhi]

/-- Concrete run of the add-event contract: a standup at time 100 added to a
fresh repository, with the body checked out again afterwards and the whole
day's range queried. -/
theorem add_event_contract_witness :
    (MemoryRepo.new.timeline = some Timeline.default ∧ (0 : Nat) ≠ 1) ∧
    (MemoryRepo.new.add_event 0 1 (.instant 100) ("Standup") ("") =
        some (⟨some (Timeline.default.record (TimeSpan.instant 100).earliest 1),
                assocPut (assocPut MemoryRepo.new.blobs 0 none) 1 none⟩,
          1, 0, ⟨⟨.instant 100, 0⟩, 1⟩, ⟨⟨("Standup"), ("")⟩, 0⟩) ∧
      assocGet (assocPut (assocPut MemoryRepo.new.blobs 0 none) 1 none) 0
        = some none ∧
      assocGet (assocPut (assocPut MemoryRepo.new.blobs 0 none) 1 none) 1
        = some none ∧
      (∃ repo5,
        RepoRef.drop Blob.eventBody
            ⟨some (Timeline.default.record (TimeSpan.instant 100).earliest 1),
              assocPut (assocPut MemoryRepo.new.blobs 0 none) 1 none⟩
            ⟨⟨("Standup"), ("")⟩, 0⟩ = .ok repo5 ∧
        repo5.get_event_body 0 =
          .ok ⟨⟨("Standup"), ("")⟩, 0⟩
            { repo5 with blobs := assocPut repo5.blobs 0 none }) ∧
      (Timeline.default = Timeline.default → ∀ lo hi,
        lo ≤ (TimeSpan.instant 100).earliest →
        (TimeSpan.instant 100).earliest < hi →
        (Timeline.default.record (TimeSpan.instant 100).earliest 1).range lo hi
          = [((TimeSpan.instant 100).earliest, 1)])) :=
  ⟨⟨rfl, by decide⟩,
    add_event_contract MemoryRepo.new Timeline.default rfl 0 1 (by decide)
      (.instant 100) ("Standup") ("")⟩

end Metime
